import Mathlib

/-!
# Verification of the grounded-retrieval decision engine

Shallow embedding of the retrieval subsystem of the telecom-support agent
repository: `retriever/retriever.py` (candidate dedup fetch, score
normalization and boosting, top-K selection, NO_CONTEXT sufficiency
decision) and `agents/technical_agent.py` (context-block composition and
source-reference formatting).

Modelling conventions:
* Python floats are modelled as exact rationals (`ℚ`); all score arithmetic
  in the source is plain `+ * / max min`, so the rational model is faithful
  up to floating-point rounding.
* Python strings are modelled as `List Char` (a Python `str` is a sequence
  of code points, and Python `len` counts code points, which matches
  `List.length`); the string operations the code uses (`join`, `lower`,
  substring test, `split`, `strip`) are given structurally recursive
  definitions with exactly the Python semantics.
* The metadata dict of a LangChain `Document` is modelled by the `Chunk`
  structure; the value `_parse_date(metadata.get("last_updated"))` is
  modelled directly by the field `parsedDate` (0 for an absent or
  unparseable date, the timestamp otherwise), since ISO-date parsing is
  outside the embedding.
* The stable Python `list.sort(key=lambda t: t[1], reverse=True)` is
  modelled as the permutation sorted by the lexicographic key
  (score descending, original position ascending); see `stableSortDesc`.
* Python slicing `l[:n]` for an `int` bound `n` is modelled by `pySlice`.
-/

namespace Retrieval

/-- A Python string, as a sequence of code points. -/
abbrev PyStr := List Char

/-- Python `sep.join(parts)`. -/
def joinSep (sep : PyStr) : List PyStr → PyStr
  | [] => []
  | [a] => a
  | a :: rest => a ++ sep ++ joinSep sep rest

/-- Python `s.split(sep)` for a one-character separator: splits at every
occurrence, keeping empty segments, and returns `[""]` on the empty
string. -/
def splitChar (sep : Char) : PyStr → List PyStr
  | [] => [[]]
  | c :: rest =>
    match splitChar sep rest with
    | [] => [[]]
    | r :: rs => if c = sep then [] :: r :: rs else (c :: r) :: rs

/-- Python `s.split("/")[-1]` (the split list is never empty, so the
default branch is unreachable). -/
def pySplitLast (s : PyStr) : PyStr :=
  ((splitChar '/' s).getLast?).getD []

/-- Models `pathlib.Path(s).name`: the last non-empty `/`-separated
segment, empty when there is none.  This is faithful for the metadata
paths of this repository (plain relative file paths; pathlib differs only
on `.` components). -/
def pathlibName (s : PyStr) : PyStr :=
  (((splitChar '/' s).filter (fun seg => seg ≠ [])).getLast?).getD []

/-- Python `s.strip()`: drop leading and trailing whitespace. -/
def pyStrip (s : PyStr) : PyStr :=
  ((s.dropWhile Char.isWhitespace).reverse.dropWhile Char.isWhitespace).reverse

/-- Whether `pat` occurs as a contiguous subsequence: Python `pat in s`. -/
def containsSeq (pat : PyStr) : PyStr → Bool
  | [] => pat.isEmpty
  | c :: rest => pat.isPrefixOf (c :: rest) || containsSeq pat rest

/-- A knowledge chunk: the metadata and content of one retrieved
LangChain `Document`.  `parsedDate` models
`_parse_date(metadata.get("last_updated"))` from `retriever.py`. -/
structure Chunk where
  docId : PyStr
  sectionPath : List PyStr
  parsedDate : ℚ
  title : PyStr
  path : PyStr
  version : PyStr
  content : PyStr
  deriving DecidableEq

/-- `RetrieverConfig` from `retriever.py`, restricted to the fields the
retrieval pipeline reads (`artifacts_dir`, `index_name` and
`embedding_model` only configure the external FAISS/embeddings adapter).
`top_k` is an `Int` because the Python field is an `int` and per-call
overrides are merged into it; defaults are the source defaults. -/
structure RetrieverConfig where
  top_k : Int := 8
  fetch_k : Nat := 24
  threshold : ℚ := 1/2
  min_hits : Nat := 3
  freshness_boost : ℚ := 0
  step_section_boost : ℚ := 0
  deriving DecidableEq

/-- Python `l[:n]` for an `int` bound `n`: for `n ≥ 0` take the first `n`
elements, for `n < 0` drop the last `|n|` elements (clamped at zero). -/
def pySlice {α : Type} (n : Int) (l : List α) : List α :=
  if 0 ≤ n then l.take n.toNat else l.take (l.length - (-n).toNat)

theorem pySlice_nil {α : Type} (n : Int) : pySlice n ([] : List α) = [] := by
  unfold pySlice
  split <;> simp

/-- The dedup key of `_mmr_fetch`: the f-string concatenating the
doc_id metadata, a vertical bar, and the section_path entries joined
with slashes. -/
def dedupKey (c : Chunk) : PyStr :=
  c.docId ++ "|".data ++ joinSep "/".data c.sectionPath

/-- The loop of `KBRetriever._mmr_fetch`, with the running `seen_keys`
set modelled as the list of inserted keys: keep a candidate iff its dedup
key has not been seen, recording the key when kept. -/
def mmrFetchAux : List (Chunk × ℚ) → List PyStr → List (Chunk × ℚ)
  | [], _ => []
  | (c, s) :: rest, seen =>
    if dedupKey c ∈ seen then mmrFetchAux rest seen
    else (c, s) :: mmrFetchAux rest (dedupKey c :: seen)

/-- `KBRetriever._mmr_fetch`, as a function of the candidate list the
vector-store adapter returned (the adapter call itself is the external
collaborator).  The Python `float(score)` conversion is the identity in
the rational model. -/
def mmrFetch (candidates : List (Chunk × ℚ)) : List (Chunk × ℚ) :=
  mmrFetchAux candidates []

theorem mmrFetchAux_sublist (cands : List (Chunk × ℚ)) :
    ∀ seen, List.Sublist (mmrFetchAux cands seen) cands := by
  induction cands with
  | nil => intro seen; simp [mmrFetchAux]
  | cons p rest ih =>
    intro seen
    obtain ⟨c, s⟩ := p
    by_cases h : dedupKey c ∈ seen
    · simpa [mmrFetchAux, h] using (ih seen).trans (List.sublist_cons_self _ _)
    · simpa [mmrFetchAux, h] using (ih (dedupKey c :: seen)).cons₂ (c, s)

theorem mmrFetchAux_key_not_seen (cands : List (Chunk × ℚ)) :
    ∀ seen, ∀ p ∈ mmrFetchAux cands seen, dedupKey p.1 ∉ seen := by
  induction cands with
  | nil => intro seen p hp; simp [mmrFetchAux] at hp
  | cons q rest ih =>
    intro seen p hp
    obtain ⟨c, s⟩ := q
    by_cases h : dedupKey c ∈ seen
    · rw [mmrFetchAux, if_pos h] at hp
      exact ih seen p hp
    · rw [mmrFetchAux, if_neg h] at hp
      rw [List.mem_cons] at hp
      rcases hp with hp | hp
      · simpa [hp] using h
      · have := ih (dedupKey c :: seen) p hp
        exact fun hmem => this (List.mem_cons_of_mem _ hmem)

theorem mmrFetchAux_keys_pairwise (cands : List (Chunk × ℚ)) :
    ∀ seen, (mmrFetchAux cands seen).Pairwise
      (fun p q => dedupKey p.1 ≠ dedupKey q.1) := by
  induction cands with
  | nil => intro seen; simp [mmrFetchAux]
  | cons q rest ih =>
    intro seen
    obtain ⟨c, s⟩ := q
    by_cases h : dedupKey c ∈ seen
    · simpa [mmrFetchAux, h] using ih seen
    · rw [mmrFetchAux, if_neg h]
      refine List.Pairwise.cons ?_ (ih (dedupKey c :: seen))
      intro p hp heq
      have := mmrFetchAux_key_not_seen rest (dedupKey c :: seen) p hp
      exact this (by simp [← heq])

theorem mmrFetchAux_first_seen (cands : List (Chunk × ℚ)) :
    ∀ seen, ∀ p ∈ mmrFetchAux cands seen,
      cands.find? (fun q => dedupKey q.1 == dedupKey p.1) = some p := by
  induction cands with
  | nil => intro seen p hp; simp [mmrFetchAux] at hp
  | cons q rest ih =>
    intro seen p hp
    obtain ⟨c, s⟩ := q
    by_cases h : dedupKey c ∈ seen
    · rw [mmrFetchAux, if_pos h] at hp
      have hfind := ih seen p hp
      have hne : dedupKey c ≠ dedupKey p.1 := by
        intro heq
        exact mmrFetchAux_key_not_seen rest seen p hp (heq ▸ h)
      rw [List.find?_cons_of_neg _ (by simpa using hne)]
      exact hfind
    · rw [mmrFetchAux, if_neg h] at hp
      rw [List.mem_cons] at hp
      rcases hp with hp | hp
      · rw [hp]
        rw [List.find?_cons_of_pos _ (by simp)]
      · have hnot := mmrFetchAux_key_not_seen rest (dedupKey c :: seen) p hp
        have hne : dedupKey c ≠ dedupKey p.1 := by
          intro heq
          exact hnot (by simp [heq])
        have hfind := ih (dedupKey c :: seen) p hp
        rw [List.find?_cons_of_neg _ (by simpa using hne)]
        exact hfind

/-- C3: the fetch output of `_mmr_fetch` (i) has pairwise-distinct dedup
keys `docId + "|" + join(sectionPath, "/")` (at most one chunk per key),
(ii) retains, for each surviving chunk, exactly the first candidate of
the list returned by the adapter that carries its key (first-seen,
highest-adapter-ranked, wins), and (iii) is a sublist of the candidate
list, hence a stable filter preserving the relative adapter order. -/
theorem mmr_fetch_dedup_invariant (cands : List (Chunk × ℚ)) :
    (mmrFetch cands).Pairwise
      (fun p q => dedupKey p.1 ≠ dedupKey q.1) ∧
    (∀ p ∈ mmrFetch cands,
      cands.find? (fun q => dedupKey q.1 == dedupKey p.1) = some p) ∧
    List.Sublist (mmrFetch cands) cands :=
  ⟨mmrFetchAux_keys_pairwise cands [],
   mmrFetchAux_first_seen cands [],
   mmrFetchAux_sublist cands []⟩

/-- The clamp `max(0.0, min(1.0, float(s)))` of `_apply_boosts`. -/
def clamp01 (s : ℚ) : ℚ := max 0 (min 1 s)

/-- `" ".join(meta.get("section_path", [])).lower()` from `_apply_boosts`.
`Char.toLower` models `str.lower` on the characters occurring in the
knowledge base. -/
def markerText (c : Chunk) : PyStr :=
  (joinSep " ".data c.sectionPath).map Char.toLower

/-- `any(tag in section for tag in ["step", "verification"])`. -/
def hasMarker (c : Chunk) : Bool :=
  containsSeq "step".data (markerText c)
    || containsSeq "verification".data (markerText c)

/-- The loop body of `KBRetriever._apply_boosts`: clamp the raw score to
[0,1]; multiply by `1 + freshness_boost` when `freshness_boost > 0` and
the parsed date is positive; multiply by `1 + step_section_boost` when the
section text contains a marker token (the source has no
`step_section_boost > 0` guard on this second branch). -/
def applyBoost (cfg : RetrieverConfig) (p : Chunk × ℚ) : Chunk × ℚ :=
  let score := clamp01 p.2
  let score := if 0 < cfg.freshness_boost ∧ 0 < p.1.parsedDate
    then score * (1 + cfg.freshness_boost) else score
  let score := if hasMarker p.1
    then score * (1 + cfg.step_section_boost) else score
  (p.1, score)

/-- The sort key of `boosted.sort(key=lambda t: t[1], reverse=True)` on
position-tagged items: score strictly greater, or equal score and
original position not later.  A stable descending sort produces exactly
the permutation sorted by this relation. -/
def sortKey (a b : ℕ × (Chunk × ℚ)) : Prop :=
  b.2.2 < a.2.2 ∨ (a.2.2 = b.2.2 ∧ a.1 ≤ b.1)

instance : DecidableRel sortKey := fun a b => by
  unfold sortKey
  infer_instance

instance : IsTotal (ℕ × (Chunk × ℚ)) sortKey := by
  constructor
  intro a b
  rcases lt_trichotomy a.2.2 b.2.2 with h | h | h
  · exact Or.inr (Or.inl h)
  · rcases le_total a.1 b.1 with hl | hl
    · exact Or.inl (Or.inr ⟨h, hl⟩)
    · exact Or.inr (Or.inr ⟨h.symm, hl⟩)
  · exact Or.inl (Or.inl h)

instance : IsTrans (ℕ × (Chunk × ℚ)) sortKey := by
  constructor
  intro a b c hab hbc
  rcases hab with h1 | ⟨e1, l1⟩ <;> rcases hbc with h2 | ⟨e2, l2⟩
  · exact Or.inl (h2.trans h1)
  · exact Or.inl (e2 ▸ h1)
  · exact Or.inl (by rw [e1]; exact h2)
  · exact Or.inr ⟨e1.trans e2, l1.trans l2⟩

/-- Python `list.sort(key=lambda t: t[1], reverse=True)`: the stable
descending sort by score, via the unique permutation sorted by the
lexicographic key (score descending, original position ascending). -/
def stableSortDesc (l : List (Chunk × ℚ)) : List (Chunk × ℚ) :=
  (l.enum.insertionSort sortKey).map Prod.snd

/-- `KBRetriever._apply_boosts`: boost every candidate score, then
re-rank by boosted score (the final `boosted.sort(...)` of the source). -/
def applyBoosts (cfg : RetrieverConfig) (items : List (Chunk × ℚ)) :
    List (Chunk × ℚ) :=
  stableSortDesc (items.map (applyBoost cfg))

/-- C4: under the spec configuration invariant that both boosts are
nonnegative, `_apply_boosts` computes each boosted score by clamping the
raw score to [0,1], multiplying by `1 + freshnessBoost` exactly when
`freshnessBoost > 0` and the chunk has a parseable (positive-timestamp)
date, and multiplying by `1 + sectionBoost` exactly when
`sectionBoost > 0` and the section path contains a marker token, with no
re-clamp afterwards; consequently the boosted score is nonnegative, and
with both boosts zero it equals `clamp(rawScore, 0, 1)` exactly. -/
theorem apply_boosts_clamp_formula (cfg : RetrieverConfig) (c : Chunk) (s : ℚ)
    (hfb : 0 ≤ cfg.freshness_boost) (hsb : 0 ≤ cfg.step_section_boost) :
    (applyBoost cfg (c, s)).2
      = clamp01 s
          * (if 0 < cfg.freshness_boost ∧ 0 < c.parsedDate
              then 1 + cfg.freshness_boost else 1)
          * (if 0 < cfg.step_section_boost ∧ hasMarker c = true
              then 1 + cfg.step_section_boost else 1)
    ∧ 0 ≤ (applyBoost cfg (c, s)).2
    ∧ (cfg.freshness_boost = 0 → cfg.step_section_boost = 0 →
        (applyBoost cfg (c, s)).2 = clamp01 s) := by
  have hc0 : 0 ≤ clamp01 s := le_max_left 0 _
  refine ⟨?_, ?_, ?_⟩
  · simp only [applyBoost]
    by_cases hm : hasMarker c
    · rcases hsb.lt_or_eq with hs | hs
      · simp [hm, hs]
      · simp [hm, ← hs]
    · simp [hm]
  · simp only [applyBoost]
    split_ifs <;>
      first
        | exact hc0
        | exact mul_nonneg hc0 (by linarith)
        | exact mul_nonneg (mul_nonneg hc0 (by linarith)) (by linarith)
  · intro hf0 hs0
    simp only [applyBoost, hf0, hs0]
    split_ifs <;> simp

/-- C7 counterexample input: two chunks with distinct keys, ascending
clamped scores. -/
def chA : Chunk :=
  { docId := "dA".data, sectionPath := [], parsedDate := 0,
    title := "A".data, path := "kb/a.md".data, version := "v1".data,
    content := "a".data }

/-- Second fixture chunk, distinct from `chA`. -/
def chB : Chunk :=
  { docId := "dB".data, sectionPath := [], parsedDate := 0,
    title := "B".data, path := "kb/b.md".data, version := "v1".data,
    content := "b".data }

/-- The source defaults of `RetrieverConfig` (both boosts disabled). -/
def cfg0 : RetrieverConfig := {}

/-- C7 counterexample: with all boosts at their 0 defaults,
`_apply_boosts` does not return the candidates in the order it received
them — the ascending input `[(chA, 0), (chB, 1)]` comes back descending,
because the function itself ends with `boosted.sort(...)`. -/
theorem apply_boosts_reorders :
    applyBoosts cfg0 [(chA, 0), (chB, 1)] ≠ [(chA, 0), (chB, 1)] := by
  decide

/-- C7 (amended): the boosting loop of `_apply_boosts` preserves the
candidate order (it only populates the boosted scores), but the function
then re-sorts before returning: its output is a permutation of the
boosted candidates that is descending in boosted score.  The sorting
therefore happens inside `_apply_boosts`, not in a separate later
selector step. -/
theorem apply_boosts_order (cfg : RetrieverConfig) (items : List (Chunk × ℚ)) :
    (items.map (applyBoost cfg)).map Prod.fst = items.map Prod.fst
    ∧ List.Perm (applyBoosts cfg items) (items.map (applyBoost cfg))
    ∧ List.Pairwise (fun a b : Chunk × ℚ => b.2 ≤ a.2)
        (applyBoosts cfg items) := by
  refine ⟨?_, ?_, ?_⟩
  · have hfst : Prod.fst ∘ applyBoost cfg = Prod.fst := by
      funext p
      rfl
    rw [List.map_map, hfst]
  · unfold applyBoosts stableSortDesc
    have h := List.perm_insertionSort sortKey (items.map (applyBoost cfg)).enum
    exact (h.map Prod.snd).trans (by rw [List.enum_map_snd])
  · unfold applyBoosts stableSortDesc
    have h := List.sorted_insertionSort sortKey (items.map (applyBoost cfg)).enum
    have h2 : List.Pairwise (fun a b : ℕ × (Chunk × ℚ) => b.2.2 ≤ a.2.2)
        ((items.map (applyBoost cfg)).enum.insertionSort sortKey) := by
      refine h.imp ?_
      intro a b hab
      rcases hab with hab | ⟨hab, _⟩
      · exact hab.le
      · exact hab.ge
    exact List.pairwise_map.mpr h2

/-- The configuration of spec Scenario D: `freshnessBoost = 0.1`, section
boost disabled. -/
def cfgScenarioD : RetrieverConfig := { freshness_boost := 1/10 }

/-- C9: with `freshnessBoost = 0.1` and `sectionBoost = 0`, a chunk with
a parseable (positive-timestamp) date, no procedural marker in its
section path, and raw score 0.8, gets boosted score exactly
0.88 = 22/25. -/
theorem scenario_d_exact (c : Chunk)
    (hdate : 0 < c.parsedDate) (hm : hasMarker c = false) :
    (applyBoost cfgScenarioD (c, 4/5)).2 = 22/25 := by
  norm_num [applyBoost, cfgScenarioD, hm, hdate, clamp01, min_def, max_def]

/-- A chunk with a fresh date and a non-procedural section path. -/
def chIntro : Chunk :=
  { docId := "dI".data, sectionPath := ["Intro".data], parsedDate := 1,
    title := "I".data, path := "kb/i.md".data, version := "v2".data,
    content := "i".data }

/-- Witness for C9 at the concrete chunk `chIntro`. -/
theorem scenario_d_exact_witness :
    (0 < chIntro.parsedDate ∧ hasMarker chIntro = false)
    ∧ (applyBoost cfgScenarioD (chIntro, 4/5)).2 = 22/25 :=
  ⟨⟨by decide, by decide⟩,
   scenario_d_exact chIntro (by decide) (by decide)⟩

/-- A configuration with both boosts positive, satisfying the spec
invariant that boosts are nonnegative. -/
def cfgBoth : RetrieverConfig :=
  { freshness_boost := 1/10, step_section_boost := 2/25 }

/-- A chunk with a fresh date and a procedural section path. -/
def chSteps : Chunk :=
  { docId := "dS".data, sectionPath := ["Steps".data], parsedDate := 1,
    title := "S".data, path := "kb/s.md".data, version := "v1".data,
    content := "s".data }

/-- Witness for C4 at `cfgBoth` and `chSteps` with raw score 0.8. -/
theorem apply_boosts_clamp_formula_witness :
    (0 ≤ cfgBoth.freshness_boost ∧ 0 ≤ cfgBoth.step_section_boost)
    ∧ ((applyBoost cfgBoth (chSteps, 4/5)).2
        = clamp01 (4/5)
            * (if 0 < cfgBoth.freshness_boost ∧ 0 < chSteps.parsedDate
                then 1 + cfgBoth.freshness_boost else 1)
            * (if 0 < cfgBoth.step_section_boost ∧ hasMarker chSteps = true
                then 1 + cfgBoth.step_section_boost else 1)
      ∧ 0 ≤ (applyBoost cfgBoth (chSteps, 4/5)).2
      ∧ (cfgBoth.freshness_boost = 0 → cfgBoth.step_section_boost = 0 →
          (applyBoost cfgBoth (chSteps, 4/5)).2 = clamp01 (4/5))) :=
  ⟨⟨by norm_num [cfgBoth], by norm_num [cfgBoth]⟩,
   apply_boosts_clamp_formula cfgBoth chSteps (4/5)
     (by norm_num [cfgBoth]) (by norm_num [cfgBoth])⟩

/-- Python `round(x, 4)` from `_to_source_dict`: round to 4 decimal
places with ties to even, idealized to exact rational arithmetic. -/
def pyRound4 (q : ℚ) : ℚ :=
  (((if Int.fract (q * 10000) = 1/2
      then 2 * round (q * 10000 / 2)
      else round (q * 10000)) : ℤ) : ℚ) / 10000

/-- The per-source dict built by `KBRetriever._to_source_dict` (keys
`title`, `section`, `file`, `version`, `score`).  `section` is a Lean
keyword, so the field is named `sectionLabel`; it and `file` are
`Option`-valued because the source computes them with `... or None`. -/
structure SourceDict where
  title : PyStr
  sectionLabel : Option PyStr
  file : Option PyStr
  version : PyStr
  score : ℚ
  deriving DecidableEq

/-- `KBRetriever._to_source_dict`:
`section` is `" / ".join(section_path) or None` and `file` is
`Path(path).name or None`. -/
def toSourceDict (c : Chunk) (score : ℚ) : SourceDict :=
  { title := c.title
    sectionLabel :=
      if joinSep " / ".data c.sectionPath = [] then none
      else some (joinSep " / ".data c.sectionPath)
    file :=
      if pathlibName c.path = [] then none
      else some (pathlibName c.path)
    version := c.version
    score := pyRound4 score }

/-- The dict returned by `KBRetriever.retrieve` (keys `docs`, `scores`,
`sources`, `no_context`, `applied_threshold`).  The spec flag
`sufficient` is the negation of `no_context`. -/
structure RetrievalResult where
  docs : List Chunk
  scores : List ℚ
  sources : List SourceDict
  no_context : Bool
  applied_threshold : ℚ
  deriving DecidableEq

/-- The merge `top_k = top_k or self.cfg.top_k` at the head of
`retrieve`: `None` and the falsy int `0` fall back to the configured
value; any other override is used as passed. -/
def mergeTopK (cfg : RetrieverConfig) : Option Int → Int
  | none => cfg.top_k
  | some n => if n = 0 then cfg.top_k else n

/-- `KBRetriever.retrieve`, as a function of the candidate list the
adapter returns for the query: fetch with dedup, boost and re-rank,
truncate with the Python slice `items[:top_k]`, then the NO_CONTEXT
decision
`len(items) < min_hits or sum(scores) / max(1, len(scores)) < threshold`. -/
def retrieveModel (cfg : RetrieverConfig) (topKOverride : Option Int)
    (candidates : List (Chunk × ℚ)) : RetrievalResult :=
  let top_k := mergeTopK cfg topKOverride
  let items := mmrFetch candidates
  let items := applyBoosts cfg items
  let items := pySlice top_k items
  let scores := items.map Prod.snd
  { docs := items.map Prod.fst
    scores := scores
    sources := items.map (fun p => toSourceDict p.1 p.2)
    no_context := decide (items.length < cfg.min_hits)
      || decide (scores.sum / ((max 1 scores.length : ℕ) : ℚ) < cfg.threshold)
    applied_threshold := cfg.threshold }

/-- The spec notion of mean score: the average boosted score over the
retained set, 0 when it is empty. -/
def meanScore (scores : List ℚ) : ℚ :=
  if scores = [] then 0 else scores.sum / (scores.length : ℚ)

/-- The guarded division `sum(scores) / max(1, len(scores))` of the
source computes exactly the spec mean (0 on the empty list). -/
theorem guarded_mean_eq_meanScore (scores : List ℚ) :
    scores.sum / ((max 1 scores.length : ℕ) : ℚ) = meanScore scores := by
  cases scores with
  | nil => simp [meanScore]
  | cons a l =>
    have h : max 1 (a :: l).length = (a :: l).length :=
      Nat.max_eq_right (Nat.succ_le_succ (Nat.zero_le _))
    simp [meanScore, h]

/-- The NO_CONTEXT flag of `retrieve` equals the spec decision
`count < minHits or meanScore < threshold`. -/
theorem retrieve_no_context_eq (cfg : RetrieverConfig) (ov : Option Int)
    (cands : List (Chunk × ℚ)) :
    (retrieveModel cfg ov cands).no_context
      = (decide ((retrieveModel cfg ov cands).docs.length < cfg.min_hits)
          || decide (meanScore (retrieveModel cfg ov cands).scores
              < cfg.threshold)) := by
  dsimp only [retrieveModel]
  conv_rhs => rw [List.length_map]
  rw [guarded_mean_eq_meanScore]

/-- C1: with the config invariant `topK > 0`, `retrieve` sorts the
boosted candidates in descending boosted score with ties broken by
original fetch order (formally: the retained prefix comes from a
permutation of the position-tagged boosted candidates that is sorted by
the lexicographic key `sortKey` — score descending, position ascending),
truncates to the first `topK` entries (so at most `topK` chunks are
returned), decides `no_context = (count < minHits) or (meanScore <
threshold)` with the mean equal to 0 on an empty retained set
(`sufficient` is its negation), and reports `applied_threshold =
cfg.threshold`. -/
theorem retrieve_select_sound (cfg : RetrieverConfig)
    (cands : List (Chunk × ℚ)) (htop : 0 < cfg.top_k) :
    ∃ sorted : List (ℕ × (Chunk × ℚ)),
      List.Perm sorted ((mmrFetch cands).map (applyBoost cfg)).enum
      ∧ List.Pairwise sortKey sorted
      ∧ (retrieveModel cfg none cands).docs
          = ((sorted.map Prod.snd).take cfg.top_k.toNat).map Prod.fst
      ∧ (retrieveModel cfg none cands).scores
          = ((sorted.map Prod.snd).take cfg.top_k.toNat).map Prod.snd
      ∧ (retrieveModel cfg none cands).docs.length ≤ cfg.top_k.toNat
      ∧ (retrieveModel cfg none cands).no_context
          = (decide ((retrieveModel cfg none cands).docs.length < cfg.min_hits)
              || decide (meanScore (retrieveModel cfg none cands).scores
                  < cfg.threshold))
      ∧ (retrieveModel cfg none cands).applied_threshold = cfg.threshold := by
  refine ⟨((mmrFetch cands).map (applyBoost cfg)).enum.insertionSort sortKey,
    List.perm_insertionSort _ _, List.sorted_insertionSort _ _,
    ?_, ?_, ?_, ?_, rfl⟩
  · simp [retrieveModel, mergeTopK, applyBoosts, stableSortDesc, pySlice,
      htop.le]
  · simp [retrieveModel, mergeTopK, applyBoosts, stableSortDesc, pySlice,
      htop.le]
  · simp [retrieveModel, mergeTopK, applyBoosts, stableSortDesc, pySlice,
      htop.le, List.length_take]
  · exact retrieve_no_context_eq cfg none cands

/-- Candidate fixture for the C1 witness. -/
def candsW : List (Chunk × ℚ) := [(chA, 1)]

/-- Witness for C1 at the default configuration and a one-candidate
list. -/
theorem retrieve_select_sound_witness :
    (0 : Int) < cfg0.top_k
    ∧ (∃ sorted : List (ℕ × (Chunk × ℚ)),
      List.Perm sorted ((mmrFetch candsW).map (applyBoost cfg0)).enum
      ∧ List.Pairwise sortKey sorted
      ∧ (retrieveModel cfg0 none candsW).docs
          = ((sorted.map Prod.snd).take cfg0.top_k.toNat).map Prod.fst
      ∧ (retrieveModel cfg0 none candsW).scores
          = ((sorted.map Prod.snd).take cfg0.top_k.toNat).map Prod.snd
      ∧ (retrieveModel cfg0 none candsW).docs.length ≤ cfg0.top_k.toNat
      ∧ (retrieveModel cfg0 none candsW).no_context
          = (decide ((retrieveModel cfg0 none candsW).docs.length
                < cfg0.min_hits)
              || decide (meanScore (retrieveModel cfg0 none candsW).scores
                  < cfg0.threshold))
      ∧ (retrieveModel cfg0 none candsW).applied_threshold = cfg0.threshold) :=
  ⟨by decide, retrieve_select_sound cfg0 candsW (by decide)⟩

/-- C5: under the config invariant `minHits ≥ 1`, if the adapter returns
zero candidates then `retrieve` returns empty chunk, score and source
sequences with `no_context = true` (`sufficient = false`); the
computation is total on the empty list — the mean division is guarded by
`max(1, len)`, so no division by zero occurs. -/
theorem retrieve_empty_law (cfg : RetrieverConfig) (ov : Option Int)
    (hmin : 1 ≤ cfg.min_hits) :
    (retrieveModel cfg ov []).docs = []
    ∧ (retrieveModel cfg ov []).scores = []
    ∧ (retrieveModel cfg ov []).sources = []
    ∧ (retrieveModel cfg ov []).no_context = true := by
  have hpos : 0 < cfg.min_hits := hmin
  have hnil : pySlice (mergeTopK cfg ov) (applyBoosts cfg (mmrFetch [])) = [] := by
    simp [mmrFetch, mmrFetchAux, applyBoosts, stableSortDesc, pySlice_nil]
  refine ⟨?_, ?_, ?_, ?_⟩ <;> simp [retrieveModel, hnil, hpos]

/-- Witness for C5 at the default configuration. -/
theorem retrieve_empty_law_witness :
    1 ≤ cfg0.min_hits
    ∧ ((retrieveModel cfg0 none []).docs = []
      ∧ (retrieveModel cfg0 none []).scores = []
      ∧ (retrieveModel cfg0 none []).sources = []
      ∧ (retrieveModel cfg0 none []).no_context = true) :=
  ⟨by decide, retrieve_empty_law cfg0 none (by decide)⟩

/-- C6: for a fixed candidate list, the sufficiency decision is antitone
in the thresholds: if the call is insufficient (`no_context = true`) at
`cfg`, it stays insufficient when `scoreThreshold` is raised to any
`t₂ ≥ cfg.threshold`, and likewise when `minHits` is raised to any
`m₂ ≥ cfg.min_hits` — raising either knob can never turn an insufficient
outcome into a sufficient one. -/
theorem sufficiency_monotone (cfg : RetrieverConfig)
    (cands : List (Chunk × ℚ)) (t₂ : ℚ) (m₂ : ℕ)
    (ht : cfg.threshold ≤ t₂) (hm : cfg.min_hits ≤ m₂)
    (h : (retrieveModel cfg none cands).no_context = true) :
    (retrieveModel { cfg with threshold := t₂ } none cands).no_context = true
    ∧ (retrieveModel { cfg with min_hits := m₂ } none cands).no_context
        = true := by
  simp only [retrieveModel, mergeTopK] at h ⊢
  rw [Bool.or_eq_true] at h ⊢
  rw [Bool.or_eq_true]
  constructor
  · rcases h with h1 | h2
    · exact Or.inl h1
    · exact Or.inr (decide_eq_true
        (lt_of_lt_of_le (of_decide_eq_true h2) ht))
  · rcases h with h1 | h2
    · exact Or.inl (decide_eq_true
        (lt_of_lt_of_le (of_decide_eq_true h1) hm))
    · exact Or.inr h2

/-- Witness for C6 at the default configuration and an empty candidate
list, raising the threshold to 1 and `min_hits` to 5. -/
theorem sufficiency_monotone_witness :
    (cfg0.threshold ≤ 1 ∧ cfg0.min_hits ≤ 5
      ∧ (retrieveModel cfg0 none []).no_context = true)
    ∧ ((retrieveModel { cfg0 with threshold := 1 } none []).no_context = true
      ∧ (retrieveModel { cfg0 with min_hits := 5 } none []).no_context
          = true) :=
  ⟨⟨by norm_num [cfg0], by decide, by decide⟩,
   sufficiency_monotone cfg0 [] 1 5 (by norm_num [cfg0]) (by decide)
     (by decide)⟩

/-- Two-candidate fixture with distinct dedup keys and equal scores. -/
def candsTwo : List (Chunk × ℚ) := [(chA, 1), (chB, 1)]

/-- C10 counterexample: the per-call override `-1` is not strictly
positive, yet it takes effect — `-1 or cfg.top_k` keeps the truthy `-1`,
and the Python slice `items[:-1]` drops the last retained chunk, so the
result differs from the un-overridden call. -/
theorem topk_override_negative_counterexample :
    (retrieveModel cfg0 (some (-1)) candsTwo).docs
      ≠ (retrieveModel cfg0 none candsTwo).docs := by
  decide

/-- C10 (amended): the merge `top_k or self.cfg.top_k` treats `None` and
the falsy override `0` alike, so a call with override 0 returns exactly
the result of an un-overridden call; but every nonzero override takes
effect, including negative ones, which truncate like the Python slice
`items[:n]`, keeping all but the last `|n|` re-ranked items. -/
theorem topk_override_merge (cfg : RetrieverConfig)
    (cands : List (Chunk × ℚ)) (n : Int) (hn : n < 0) :
    retrieveModel cfg (some 0) cands = retrieveModel cfg none cands
    ∧ (retrieveModel cfg (some n) cands).docs.length
        = (mmrFetch cands).length - (-n).toNat := by
  constructor
  · simp [retrieveModel, mergeTopK]
  · have hns : ¬ 0 ≤ n := not_le.mpr hn
    have hmt : mergeTopK cfg (some n) = n := by
      simp [mergeTopK, hn.ne]
    simp [retrieveModel, hmt, pySlice, hns, applyBoosts, stableSortDesc,
      List.length_take]

/-- Witness for C10 at the default configuration, two candidates, and
override `-1`. -/
theorem topk_override_merge_witness :
    ((-1 : Int) < 0)
    ∧ (retrieveModel cfg0 (some 0) candsTwo = retrieveModel cfg0 none candsTwo
      ∧ (retrieveModel cfg0 (some (-1)) candsTwo).docs.length
          = (mmrFetch candsTwo).length - (-(-1) : Int).toNat) :=
  ⟨by decide, topk_override_merge cfg0 candsTwo (-1) (by decide)⟩

/-- The expression `" / ".join(section_path) or "-"` used by the
renderers of `technical_agent.py`. -/
def sectionOrDash (sp : List PyStr) : PyStr :=
  if joinSep " / ".data sp = [] then "-".data else joinSep " / ".data sp

/-- The header f-string of `_compose_context`:
`[SOURCE] {title} — {section or -} — {path} (v:{version})`. -/
def headerLine (c : Chunk) : PyStr :=
  "[SOURCE] ".data ++ c.title ++ " — ".data ++ sectionOrDash c.sectionPath
    ++ " — ".data ++ c.path ++ " (v:".data ++ c.version ++ ")".data

/-- One composed chunk of `_compose_context`:
`header + "\n" + body + "\n"` with `body = page_content.strip()`. -/
def chunkText (c : Chunk) : PyStr :=
  headerLine c ++ "\n".data ++ pyStrip c.content ++ "\n".data

/-- The budget loop of `_compose_context`: keep adding chunk texts while
the cumulative character count stays within `max_chars`, breaking at the
first chunk that would exceed it. -/
def composeContextAux (maxChars : Nat) : List Chunk → Nat → List PyStr
  | [], _ => []
  | c :: rest, used =>
    if maxChars < used + (chunkText c).length then []
    else chunkText c
      :: composeContextAux maxChars rest (used + (chunkText c).length)

/-- `_compose_context(sources, max_chars)`, as a function of the docs of
the wrapped sources list: the retained chunk texts joined with a blank
line (`"\n\n".join(parts)`). -/
def composeContext (srcs : List Chunk) (maxChars : Nat) : PyStr :=
  joinSep "\n\n".data (composeContextAux maxChars srcs 0)

/-- One line of `_format_sources`:
`- {title} — {section or -} — {file} ({version})` with
`file = path.split("/")[-1]` (the `or ""` guards of the source are
identities on the always-present string-valued metadata of the model). -/
def formatSourceLine (c : Chunk) : PyStr :=
  "- ".data ++ c.title ++ " — ".data ++ sectionOrDash c.sectionPath
    ++ " — ".data ++ pySplitLast c.path ++ " (".data ++ c.version ++ ")".data

/-- `_format_sources(sources)`: one line per source, joined with
newlines. -/
def formatSources (srcs : List Chunk) : PyStr :=
  joinSep "\n".data (srcs.map formatSourceLine)

theorem joinSep_length (sep : PyStr) :
    ∀ parts : List PyStr,
      (joinSep sep parts).length
        = (parts.map List.length).sum + sep.length * (parts.length - 1)
  | [] => by simp [joinSep]
  | [a] => by simp [joinSep]
  | a :: b :: rest => by
    have ih := joinSep_length sep (b :: rest)
    simp only [joinSep, List.length_append, ih, List.map_cons, List.sum_cons,
      List.length_cons, Nat.add_sub_cancel]
    ring

theorem composeContextAux_sum (maxChars : Nat) (srcs : List Chunk) :
    ∀ used, used ≤ maxChars →
      used + ((composeContextAux maxChars srcs used).map List.length).sum
        ≤ maxChars := by
  induction srcs with
  | nil => intro used h; simpa [composeContextAux] using h
  | cons c rest ih =>
    intro used h
    by_cases hc : maxChars < used + (chunkText c).length
    · simpa [composeContextAux, hc] using h
    · have hle : used + (chunkText c).length ≤ maxChars := not_lt.mp hc
      have hrec := ih (used + (chunkText c).length) hle
      rw [composeContextAux, if_neg hc]
      simp only [List.map_cons, List.sum_cons]
      omega

/-- C2 (amended): the budget loop keeps the cumulative character count
of the included chunk texts within `maxChars` — chunks stop being added
at the first one that would overflow, later chunks being silently
omitted — but the returned context block joins the included chunks with
the two-character separator `"\n\n"`, which the loop does not count, so
the block length is only bounded by `maxChars + 2·(numberIncluded − 1)`
and can exceed `maxChars`; the source-reference list has exactly one
line per retained chunk regardless of `maxChars`. -/
theorem context_budget_amended (srcs : List Chunk) (maxChars : Nat) :
    ((composeContextAux maxChars srcs 0).map List.length).sum ≤ maxChars
    ∧ (composeContext srcs maxChars).length
        ≤ maxChars + 2 * ((composeContextAux maxChars srcs 0).length - 1)
    ∧ (srcs.map formatSourceLine).length = srcs.length := by
  have hsum := composeContextAux_sum maxChars srcs 0 (Nat.zero_le _)
  refine ⟨by simpa using hsum, ?_, by simp⟩
  rw [composeContext, joinSep_length]
  have h2 : ("\n\n".data).length = 2 := rfl
  rw [h2]
  omega

/-- First C2 counterexample chunk: its composed text
`[SOURCE] T — S — p (v:1)\nB\n` is 27 characters. -/
def chCtx1 : Chunk :=
  { docId := "d1".data, sectionPath := ["S".data], parsedDate := 0,
    title := "T".data, path := "p".data, version := "1".data,
    content := "B".data }

/-- Second C2 counterexample chunk, distinct doc, same text length. -/
def chCtx2 : Chunk :=
  { docId := "d2".data, sectionPath := ["S".data], parsedDate := 0,
    title := "U".data, path := "q".data, version := "1".data,
    content := "C".data }

/-- C2 counterexample: with `maxChars = 54` and two retained chunks of
27 characters each, the loop accepts both (27 + 27 ≤ 54), but the
returned block also contains the uncounted `"\n\n"` separator, so its
length is 56 — the claimed invariant `len(contextBlock) ≤ maxChars`
fails. -/
theorem context_budget_counterexample :
    ¬ ((composeContext [chCtx1, chCtx2] 54).length ≤ 54) := by
  decide

/-- C8 (amended): the rendered source line of `_format_sources` and the
context header of `_compose_context` label the section with the entries
of `sectionPath` joined by " / ", substituting the sentinel "-" when the
joined label is empty, and the rendered file name is the last
`/`-segment of the source path; the dict view `_to_source_dict` instead
uses the null value None as its empty-section sentinel, and its label
agrees with the rendered one exactly when the label is defaulted to "-"
on None. -/
theorem source_ref_sentinels (c : Chunk) (score : ℚ) :
    formatSourceLine c
      = "- ".data ++ c.title ++ " — ".data ++ sectionOrDash c.sectionPath
          ++ " — ".data ++ pySplitLast c.path ++ " (".data ++ c.version
          ++ ")".data
    ∧ headerLine c
      = "[SOURCE] ".data ++ c.title ++ " — ".data
          ++ sectionOrDash c.sectionPath ++ " — ".data ++ c.path
          ++ " (v:".data ++ c.version ++ ")".data
    ∧ ((toSourceDict c score).sectionLabel.getD "-".data)
        = sectionOrDash c.sectionPath
    ∧ ((toSourceDict c score).sectionLabel = none
        ↔ joinSep " / ".data c.sectionPath = []) := by
  refine ⟨rfl, rfl, ?_, ?_⟩
  · by_cases h : joinSep " / ".data c.sectionPath = []
    · simp [toSourceDict, sectionOrDash, h]
    · simp [toSourceDict, sectionOrDash, h]
  · by_cases h : joinSep " / ".data c.sectionPath = []
    · simp [toSourceDict, h]
    · simp [toSourceDict, h]

/-- A chunk with an empty section path. -/
def chNoSec : Chunk :=
  { docId := "d0".data, sectionPath := [], parsedDate := 0,
    title := "T0".data, path := "kb/guide.md".data, version := "v1".data,
    content := "x".data }

/-- C8 counterexample: for a retained chunk with empty `sectionPath`,
`_to_source_dict` sets the section value to None (modelled `none`), not
to the sentinel string "-" that the claim requires on every
source-reference code path. -/
theorem source_dict_none_counterexample :
    (toSourceDict chNoSec (1/2)).sectionLabel = none
    ∧ (none : Option PyStr) ≠ some "-".data := by
  exact ⟨rfl, by simp⟩

end Retrieval
